import Mathlib

/-!
# Formal model of the FundValidation return-computation and reconciliation engine

Shallow embedding of the parts of the repository that the verified claims
are about:

* `csv_comparator.py` — `CSVComparator._normalize_date`,
  `CSVComparator.compare_all_combinations`, `CSVComparator.run_comparison`;
* `data_combiner.py` — `DataCombiner._calculate_rentabilidade`,
  `DataCombiner.get_database_data`;
* `config.py` — `COMPARISON_TOLERANCE`, `PERIODO_DESCRICOES`.

Conventions of the embedding:

* Python floats are modelled as exact rationals `ℚ`; Python's float division,
  which raises `ZeroDivisionError` on a zero denominator, is modelled by
  `pydiv : ℚ → ℚ → Option ℚ`, and a raised exception propagating through a
  computation is the `none` value.
* `datetime.strptime` for the four formats used by `_normalize_date` is
  modelled by hand-written parsers over `List Char` that mirror CPython's
  `_strptime` regular expressions (`%Y` is exactly four digits; `%m`, `%d`,
  `%H`, `%M`, `%S` are one or two digits with the documented value ranges)
  together with the range/calendar validation performed by the `datetime`
  constructor.  `strftime('%Y-%m-%d')` is modelled as zero-padded
  4-2-2-digit formatting, per the Python documentation of the format codes.
* pandas dataframes are lists of records; `pd.merge(..., how='left')` on the
  three-column key is the per-left-row expansion into matching right rows
  (one sentinel row when there is no match), and `DataFrame.sort_values` is
  a sort by the given column tuple.
-/

/-! ## Dates and Python `datetime` values -/

/-- A calendar date, as produced by `datetime.date`. -/
structure Date where
  year : Nat
  month : Nat
  day : Nat
deriving DecidableEq, Repr

/-- A `datetime.datetime` value (microseconds are not modelled; the code
under verification never constructs a datetime with microseconds). -/
structure PyDateTime where
  date : Date
  hour : Nat
  minute : Nat
  second : Nat
deriving DecidableEq, Repr

/-- Numeric value of a digit character. -/
def dval (c : Char) : Nat := c.toNat - 48

/-- The digit character of `n % 10`. -/
def digitChar (n : Nat) : Char := Char.ofNat (48 + n % 10)

/-- `strftime('%m')`-style zero-padded two-digit rendering (arguments are
always at most two digits in the code under verification). -/
def pad2Chars (n : Nat) : List Char := [digitChar (n / 10), digitChar n]

/-- `strftime('%Y')`-style zero-padded four-digit rendering. -/
def pad4Chars (n : Nat) : List Char :=
  [digitChar (n / 1000), digitChar (n / 100), digitChar (n / 10), digitChar n]

/-- `date.strftime('%Y-%m-%d')` / `str(date)`. -/
def formatDate (d : Date) : String :=
  ⟨pad4Chars d.year ++ '-' :: pad2Chars d.month ++ '-' :: pad2Chars d.day⟩

/-- `str(datetime)`, i.e. `isoformat(sep=' ')` with zero microseconds. -/
def formatDateTime (dt : PyDateTime) : String :=
  ⟨pad4Chars dt.date.year ++ '-' :: pad2Chars dt.date.month ++
    '-' :: pad2Chars dt.date.day ++ ' ' :: pad2Chars dt.hour ++
    ':' :: pad2Chars dt.minute ++ ':' :: pad2Chars dt.second⟩

/-! ### `strptime` field readers -/

/-- `%Y`: exactly four digit characters (CPython `_strptime` regex
`\d\d\d\d`). -/
def read4 : List Char → Option (Nat × List Char)
  | a :: b :: c :: d :: rest =>
    if a.isDigit && b.isDigit && c.isDigit && d.isDigit then
      some (1000 * dval a + 100 * dval b + 10 * dval c + dval d, rest)
    else none
  | _ => none

/-- `%m`/`%d`/`%H`/`%M`/`%S`: one or two digit characters, greedily two.
CPython's regex alternations allow backtracking from two digits to one, but
a one-digit reading is only viable when the following character is a
non-digit delimiter, so greedy reading is equivalent. -/
def read2 : List Char → Option (Nat × List Char)
  | a :: b :: rest =>
    if a.isDigit then
      if b.isDigit then some (10 * dval a + dval b, rest)
      else some (dval a, b :: rest)
    else none
  | [a] => if a.isDigit then some (dval a, []) else none
  | [] => none

/-- Consume one expected literal character. -/
def expectChar (c : Char) : List Char → Option (List Char)
  | x :: rest => if x = c then some rest else none
  | [] => none

/-- Gregorian leap-year rule used by `datetime`. -/
def isLeap (y : Nat) : Bool := y % 4 == 0 && (y % 100 != 0 || y % 400 == 0)

/-- Length of a month, as validated by the `datetime` constructor. -/
def daysInMonth (y m : Nat) : Nat :=
  if m = 2 then (if isLeap y then 29 else 28)
  else if m = 4 ∨ m = 6 ∨ m = 9 ∨ m = 11 then 30
  else 31

/-- The `datetime` constructor's validation of a (year, month, day) triple:
`MINYEAR = 1 ≤ year ≤ 9999 = MAXYEAR`, month in range, day in range for
that month. -/
def validDate (y m d : Nat) : Bool :=
  1 ≤ y && y ≤ 9999 && 1 ≤ m && m ≤ 12 && 1 ≤ d && d ≤ daysInMonth y m

/-- Parse the leading `%Y-%m-%d` of a format, with the constructor's
validation folded in (an invalid date raises `ValueError`, which the caller
treats the same as a non-matching format). -/
def readDatePrefix (cs : List Char) : Option (Date × List Char) := do
  let (y, cs) ← read4 cs
  let cs ← expectChar '-' cs
  let (m, cs) ← read2 cs
  let cs ← expectChar '-' cs
  let (d, cs) ← read2 cs
  if validDate y m d then some (⟨y, m, d⟩, cs) else none

/-- Parse a trailing `%H:%M:%S`, validating ranges; the time-of-day is
discarded because `_normalize_date` keeps only the date portion. -/
def readTime (cs : List Char) : Option (List Char) := do
  let (h, cs) ← read2 cs
  let cs ← expectChar ':' cs
  let (mi, cs) ← read2 cs
  let cs ← expectChar ':' cs
  let (s, cs) ← read2 cs
  if h ≤ 23 && mi ≤ 59 && s ≤ 59 then some cs else none

/-- `strptime(s, '%Y-%m-%dT%H:%M:%S')`, keeping the date portion. -/
def parseFmtT (cs : List Char) : Option Date := do
  let (d, cs) ← readDatePrefix cs
  let cs ← expectChar 'T' cs
  let cs ← readTime cs
  if cs.isEmpty then some d else none

/-- `strptime(s, '%Y-%m-%dT%H:%M:%SZ')`, keeping the date portion. -/
def parseFmtTZ (cs : List Char) : Option Date := do
  let (d, cs) ← readDatePrefix cs
  let cs ← expectChar 'T' cs
  let cs ← readTime cs
  let cs ← expectChar 'Z' cs
  if cs.isEmpty then some d else none

/-- `strptime(s, '%Y-%m-%d %H:%M:%S')`, keeping the date portion. -/
def parseFmtSpace (cs : List Char) : Option Date := do
  let (d, cs) ← readDatePrefix cs
  let cs ← expectChar ' ' cs
  let cs ← readTime cs
  if cs.isEmpty then some d else none

/-- `strptime(s, '%Y-%m-%d')`. -/
def parseFmtDateOnly (cs : List Char) : Option Date := do
  let (d, cs) ← readDatePrefix cs
  if cs.isEmpty then some d else none

/-- The format loop of `_normalize_date`: try the four formats in the
source's order, return the first success. -/
def tryParseDate (cs : List Char) : Option Date :=
  (parseFmtT cs).orElse fun _ =>
    (parseFmtTZ cs).orElse fun _ =>
      (parseFmtSpace cs).orElse fun _ => parseFmtDateOnly cs

/-! ## `CSVComparator._normalize_date` -/

/-- The dynamically typed argument of `_normalize_date`: a string, an
already-parsed date or datetime, or a missing value (`pd.isna`). -/
inductive PyVal where
  | vStr (s : String)
  | vDate (d : Date)
  | vDateTime (dt : PyDateTime)
  | vNaN
deriving DecidableEq, Repr

/-- `CSVComparator._normalize_date` (csv_comparator.py lines 293-320).
Missing/empty input yields `''`; a string is run through the format loop
and formatted back as `%Y-%m-%d` on success, or returned unchanged on
failure; any other value is returned as `str(value)`.  The function is
total: it never raises. -/
def normalizeDate : PyVal → String
  | .vNaN => ""
  | .vStr s =>
    if s = "" then ""
    else
      match tryParseDate s.data with
      | some d => formatDate d
      | none => s
  | .vDate d => formatDate d
  | .vDateTime dt => formatDateTime dt

/-- `_normalize_date` restricted to string inputs. -/
def normStr (s : String) : String := normalizeDate (.vStr s)

/-! ## `DataCombiner._calculate_rentabilidade` (data_combiner.py lines 66-175)

Database records carry their dates already parsed (the database client
returns `datetime` values; the string-parsing branch at lines 107-120 of
`data_combiner.py` only converts a textual representation to the same
`date` value, so records are embedded with `Date` fields directly). -/

/-- Python `date` comparison: lexicographic on (year, month, day). -/
def dateLt (a b : Date) : Bool :=
  a.year < b.year ||
    (a.year == b.year &&
      (a.month < b.month || (a.month == b.month && a.day < b.day)))

/-- Python `date` comparison, non-strict. -/
def dateLe (a b : Date) : Bool := dateLt a b || a == b

/-- One row returned by `DatabaseClient.get_all_fund_values`, restricted to
the fields `_calculate_rentabilidade` reads. -/
structure DbRecord where
  FinancialInstrumentId : Int
  PeriodoSelecionado : Int
  PositionDate : Date
  DataInicioPeriodo : Date
  QuotaValue : ℚ
deriving DecidableEq, Repr

/-- A database row after `record.update` with the three computed
rentabilidade fields (data_combiner.py lines 164-168). -/
structure RentRecord where
  base : DbRecord
  Rentabilidade : ℚ
  RentabilidadeAcumulada : ℚ
  PorcentagemRentabilidadeAcumulada : ℚ
deriving DecidableEq, Repr

/-- Python float division: raises `ZeroDivisionError` on a zero
denominator; the raised exception is modelled as `none`. -/
def pydiv (a b : ℚ) : Option ℚ :=
  if b = 0 then none else some (a / b)

/-- Whether a record is a pre-period (anchor-candidate) record:
`position_date < data_inicio` (data_combiner.py line 123). -/
def preAnchor (r : DbRecord) : Bool := dateLt r.PositionDate r.DataInicioPeriodo

/-- Build the output record for one period observation
(data_combiner.py lines 161-168). -/
def mkRent (r : DbRecord) (rent acum : ℚ) : RentRecord :=
  { base := r
    Rentabilidade := rent
    RentabilidadeAcumulada := acum
    PorcentagemRentabilidadeAcumulada := acum * 100 }

/-- The `i > 0` iterations of the loop at data_combiner.py lines 137-173:
each step divides the current quota by the previous record's quota and
chains the accumulated return multiplicatively. -/
def calcRest (prevQuota prevAcum : ℚ) : List DbRecord → Option (List RentRecord)
  | [] => some []
  | p :: rest => do
    let q ← pydiv p.QuotaValue prevQuota
    let rent := q - 1
    let acum := (prevAcum + 1) * (rent + 1) - 1
    let tail ← calcRest p.QuotaValue acum rest
    some (mkRent p rent acum :: tail)

/-- The whole loop at data_combiner.py lines 137-173: the `i = 0` iteration
uses the anchor quota when present (and returns/accumulates 0 when absent),
the remaining iterations are `calcRest`. -/
def calcPeriods (anchorQuota : Option ℚ) : List DbRecord → Option (List RentRecord)
  | [] => some []
  | p :: rest =>
    match anchorQuota with
    | some aq => do
      let q ← pydiv p.QuotaValue aq
      let rent := q - 1
      let tail ← calcRest p.QuotaValue rent rest
      some (mkRent p rent rent :: tail)
    | none => do
      let tail ← calcRest p.QuotaValue 0 rest
      some (mkRent p 0 0 :: tail)

/-- The per-group body of `_calculate_rentabilidade` (data_combiner.py
lines 91-173), applied to one chronologically sorted (instrument, period)
group: the single pass at lines 102-126 that splits the group into
anchor-candidate and in-period records is the pair of filters on
`preAnchor`, the anchor quota is the first anchor-candidate's quota
(lines 128-132), and the loop is `calcPeriods`. -/
def calcGroup (sortedRecords : List DbRecord) : Option (List RentRecord) :=
  let anchorRecords := sortedRecords.filter (fun r => preAnchor r)
  let periodRecords := sortedRecords.filter (fun r => !(preAnchor r))
  let anchorQuota : Option ℚ := anchorRecords.head?.map (·.QuotaValue)
  calcPeriods anchorQuota periodRecords

/-- Grouping key (data_combiner.py line 83). -/
def groupKey (r : DbRecord) : Int × Int :=
  (r.FinancialInstrumentId, r.PeriodoSelecionado)

/-- The distinct grouping keys in order of first appearance, as iterated by
the (insertion-ordered) Python dict at data_combiner.py lines 81-90. -/
def groupKeys : List DbRecord → List (Int × Int)
  | [] => []
  | r :: rs => groupKey r :: (groupKeys rs).filter (fun k => decide (k ≠ groupKey r))

/-- `sorted(records, key=lambda x: x["PositionDate"])` (line 92): a stable
sort by position date. -/
def posLe (a b : DbRecord) : Prop := dateLe a.PositionDate b.PositionDate = true

instance : DecidableRel posLe := fun a b =>
  inferInstanceAs (Decidable (dateLe a.PositionDate b.PositionDate = true))

/-- `DataCombiner._calculate_rentabilidade` (data_combiner.py lines
66-175): group by (FinancialInstrumentId, PeriodoSelecionado), sort each
group by PositionDate, compute the per-group rentabilidade chain, and
concatenate the groups' outputs in key order.  A `ZeroDivisionError` in any
group aborts the whole call (there is no per-record handler), hence the
`Option`.  The `len < 1` guard at line 94 only skips empty groups, which
the grouping never produces and for which `calcGroup` returns `[]` anyway. -/
def calculateRentabilidade (dbRecords : List DbRecord) : Option (List RentRecord) :=
  if dbRecords.isEmpty then some []
  else do
    let groups := (groupKeys dbRecords).map
      (fun k => dbRecords.filter (fun r => decide (groupKey r = k)))
    let results ← groups.mapM (fun g => calcGroup (g.insertionSort posLe))
    some results.flatten

/-- `DataCombiner.get_database_data` (data_combiner.py lines 22-64),
restricted to its computational content: the `try` block calls
`_calculate_rentabilidade` on the fetched rows and the `except` at lines
60-62 turns any escaping exception (the `ZeroDivisionError`, modelled as
`none`) into an empty result list. -/
def getDatabaseData (dbRecords : List DbRecord) : List RentRecord :=
  match calculateRentabilidade dbRecords with
  | some l => l
  | none => []

/-! ## `CSVComparator.compare_all_combinations` (csv_comparator.py lines 136-291) -/

/-- `config.COMPARISON_TOLERANCE` (the Python float `0.10`, exactly
representable intent `1/10`; `compare_all_combinations` is modelled with
the tolerance as a parameter, mirroring `self.tolerance`). -/
def COMPARISON_TOLERANCE : ℚ := 1 / 10

/-- `config.PERIODO_DESCRICOES` as a partial map. -/
def PERIODO_DESCRICOES (p : Int) : Option String :=
  if p = 1 then some "Na semana atual"
  else if p = 2 then some "No mês atual"
  else if p = 3 then some "No ano atual"
  else if p = 4 then some "Nos últimos 12 meses"
  else if p = 5 then some "Nos últimos 3 anos"
  else if p = 6 then some "Desde 2019"
  else if p = 7 then some "Nos últimos 2 anos"
  else if p = 8 then some "Nos últimos 30 dias"
  else none

/-- `PERIODO_DESCRICOES.get(periodo, "Desconhecido")`. -/
def periodoDescricao (p : Int) : String := (PERIODO_DESCRICOES p).getD "Desconhecido"

/-- One row of the API-side (feed) CSV, restricted to the columns
`compare_all_combinations` reads. -/
structure ApiRow where
  Id : Int
  PeriodoSelecionado : Int
  DataFinal : String
  PercentualAcumulado : ℚ
deriving DecidableEq, Repr

/-- One row of the bank-side CSV, restricted to the columns
`compare_all_combinations` reads. -/
structure BankRow where
  FinancialInstrumentId : Int
  PeriodoSelecionado : Int
  PositionDate : String
  QuotaValue : ℚ
  Rentabilidade : ℚ
  RentabilidadeAcumulada : ℚ
  PorcentagemRentabilidadeAcumulada : ℚ
deriving DecidableEq, Repr

/-- One row of the comparison report (csv_comparator.py lines 209-223 and
242-256).  The three bank passthrough columns are `''` on feed-only rows,
modelled as `none`. -/
structure ResultRow where
  Id : Int
  Periodo : Int
  DescricaoPeriodo : String
  PositionDate_Banco : String
  DataFinal_API : String
  QuotaValue : Option ℚ
  Rentabilidade : Option ℚ
  RentabilidadeAcumulada : Option ℚ
  PercentualAcumulado_API : ℚ
  PercentualAcumulado_Banco : ℚ
  Diferenca : ℚ
  Status : String
  TipoRegistro : String
deriving DecidableEq, Repr

/-- The three-column merge key of the `pd.merge` at lines 164-171:
`(FinancialInstrumentId, PeriodoSelecionado, PositionDate_clean)` against
`(Id, PeriodoSelecionado, DataFinal_clean)` where the `_clean` columns are
`_normalize_date` of the raw date columns. -/
def exactMatch (b : BankRow) (a : ApiRow) : Bool :=
  a.Id == b.FinancialInstrumentId &&
    a.PeriodoSelecionado == b.PeriodoSelecionado &&
    normStr a.DataFinal == normStr b.PositionDate

/-- Build one result row of the bank-driven loop (lines 202-223):
difference is the absolute value and the status is the tolerance test. -/
def mkMergedRow (tol : ℚ) (b : BankRow) (apiValue : ℚ) (apiDataFinal : String)
    (tipo : String) : ResultRow :=
  { Id := b.FinancialInstrumentId
    Periodo := b.PeriodoSelecionado
    DescricaoPeriodo := periodoDescricao b.PeriodoSelecionado
    PositionDate_Banco := b.PositionDate
    DataFinal_API := apiDataFinal
    QuotaValue := some b.QuotaValue
    Rentabilidade := some b.Rentabilidade
    RentabilidadeAcumulada := some b.RentabilidadeAcumulada
    PercentualAcumulado_API := apiValue
    PercentualAcumulado_Banco := b.PorcentagemRentabilidadeAcumulada
    Diferenca := |apiValue - b.PorcentagemRentabilidadeAcumulada|
    Status := if |apiValue - b.PorcentagemRentabilidadeAcumulada| < tol then "OK" else "ERRO"
    TipoRegistro := tipo }

/-- The rows the left join contributes for one bank row, already pushed
through the per-row processing of lines 178-223: a bank row with exact
matches yields one `"Ambas (Data exata)"` row per matching feed row (in
feed order, as `pd.merge` preserves right-side order within a left key);
a bank row without exact matches yields the fallback row of lines 190-200,
which looks up feed rows sharing only `(Id, PeriodoSelecionado)` and takes
the last one, or emits `"Só Banco"` with feed value `0.0`. -/
def processBankRow (tol : ℚ) (api : List ApiRow) (b : BankRow) : List ResultRow :=
  let ms := api.filter (fun a => exactMatch b a)
  if ms.isEmpty then
    let shared := api.filter (fun a =>
      a.Id == b.FinancialInstrumentId && a.PeriodoSelecionado == b.PeriodoSelecionado)
    match shared.getLast? with
    | some a => [mkMergedRow tol b a.PercentualAcumulado a.DataFinal "Ambas (Data não exata)"]
    | none => [mkMergedRow tol b 0 "" "Só Banco"]
  else
    ms.map (fun a => mkMergedRow tol b a.PercentualAcumulado a.DataFinal "Ambas (Data exata)")

/-- Membership in `api_used = set(merged_df['DataFinal'].dropna().unique())`
(line 227): the raw `DataFinal` values of feed rows that exact-matched at
least one bank row. -/
def rawConsumed (api : List ApiRow) (bank : List BankRow) (s : String) : Bool :=
  api.any (fun a => a.DataFinal == s && bank.any (fun b => exactMatch b a))

/-- The feed-only row of lines 242-256: bank side defaulted to `0.0`, the
difference set to the raw feed percentage (no absolute value) and the
status hard-coded to `'ERRO'`. -/
def mkFeedOnlyRow (a : ApiRow) : ResultRow :=
  { Id := a.Id
    Periodo := a.PeriodoSelecionado
    DescricaoPeriodo := periodoDescricao a.PeriodoSelecionado
    PositionDate_Banco := ""
    DataFinal_API := a.DataFinal
    QuotaValue := none
    Rentabilidade := none
    RentabilidadeAcumulada := none
    PercentualAcumulado_API := a.PercentualAcumulado
    PercentualAcumulado_Banco := 0
    Diferenca := a.PercentualAcumulado
    Status := "ERRO"
    TipoRegistro := "Só API" }

/-- The guard of the feed-only loop (lines 229-240): the feed row's raw
`DataFinal` was never consumed by an exact match, and no bank row shares
its `(Id, PeriodoSelecionado)`. -/
def feedOnlyQualifies (api : List ApiRow) (bank : List BankRow) (a : ApiRow) : Bool :=
  !(rawConsumed api bank a.DataFinal) &&
    (bank.filter (fun b =>
      b.FinancialInstrumentId == a.Id && b.PeriodoSelecionado == a.PeriodoSelecionado)).isEmpty

/-- All rows appended by the feed-only loop at lines 229-256, in feed
order. -/
def feedOnlyRows (api : List ApiRow) (bank : List BankRow) : List ResultRow :=
  (api.filter (feedOnlyQualifies api bank)).map mkFeedOnlyRow

/-- Code-point comparison of strings, as Python compares `str` values. -/
def chLeB : List Char → List Char → Bool
  | [], _ => true
  | _ :: _, [] => false
  | a :: as, b :: bs => if a.toNat = b.toNat then chLeB as bs else decide (a.toNat < b.toNat)

/-- The sort key of `result_df.sort_values(['Id', 'Periodo',
'PositionDate_Banco'])` at line 262 (pandas' sort kind leaves the order of
equal keys unspecified; the model realizes one valid ordering with a stable
insertion sort). -/
def rowLe (x y : ResultRow) : Prop :=
  (if x.Id = y.Id then
    (if x.Periodo = y.Periodo then chLeB x.PositionDate_Banco.data y.PositionDate_Banco.data = true
     else x.Periodo < y.Periodo)
   else x.Id < y.Id)

instance : DecidableRel rowLe := fun x y => by
  unfold rowLe; infer_instance

/-- `CSVComparator.compare_all_combinations` (csv_comparator.py lines
136-291): the bank-driven merge loop followed by the feed-only loop,
sorted by `(Id, Periodo, PositionDate_Banco)`. -/
def compareAllCombinations (tol : ℚ) (api : List ApiRow) (bank : List BankRow) :
    List ResultRow :=
  ((bank.flatMap (processBankRow tol api)) ++ feedOnlyRows api bank).insertionSort rowLe

/-- `CSVComparator.run_comparison` (csv_comparator.py lines 341-387),
restricted to its computational content: `none` models the `""` failure
return (empty API snapshot at lines 355-357, empty bank snapshot at lines
359-361, or an empty comparison at lines 367-369), `some rows` models a
successful run exporting `rows`. -/
def runComparison (tol : ℚ) (api : List ApiRow) (bank : List BankRow) :
    Option (List ResultRow) :=
  if api.isEmpty then none
  else if bank.isEmpty then none
  else
    let comparison := compareAllCombinations tol api bank
    if comparison.isEmpty then none else some comparison

/-! ## Helper lemmas: digits, formatting and reparsing -/

theorem dval_digitChar (n : Nat) : dval (digitChar n) = n % 10 := by
  have h : n % 10 < 10 := Nat.mod_lt _ (by norm_num)
  unfold digitChar
  set k := n % 10 with hk
  interval_cases k <;> decide

theorem isDigit_digitChar (n : Nat) : (digitChar n).isDigit = true := by
  have h : n % 10 < 10 := Nat.mod_lt _ (by norm_num)
  unfold digitChar
  set k := n % 10 with hk
  interval_cases k <;> decide

theorem read4_pad4 (y : Nat) (hy : y ≤ 9999) (rest : List Char) :
    read4 (pad4Chars y ++ rest) = some (y, rest) := by
  simp [pad4Chars, read4, isDigit_digitChar, dval_digitChar]
  omega

theorem read2_pad2 (m : Nat) (hm : m ≤ 99) (rest : List Char) :
    read2 (pad2Chars m ++ rest) = some (m, rest) := by
  simp [pad2Chars, read2, isDigit_digitChar, dval_digitChar]
  omega

theorem expectChar_cons_self (c : Char) (rest : List Char) :
    expectChar c (c :: rest) = some rest := by
  simp [expectChar]

theorem daysInMonth_le (y m : Nat) : daysInMonth y m ≤ 31 := by
  unfold daysInMonth
  split_ifs <;> omega

theorem validDate_bounds {y m d : Nat} (hv : validDate y m d = true) :
    y ≤ 9999 ∧ m ≤ 99 ∧ d ≤ 99 := by
  have hdm := daysInMonth_le y m
  simp only [validDate, Bool.and_eq_true, decide_eq_true_eq] at hv
  omega

theorem readDatePrefix_format (y m d : Nat) (hy : y ≤ 9999) (hm : m ≤ 99) (hd : d ≤ 99)
    (hv : validDate y m d = true) (rest : List Char) :
    readDatePrefix (pad4Chars y ++ '-' :: (pad2Chars m ++ '-' :: (pad2Chars d ++ rest)))
      = some (⟨y, m, d⟩, rest) := by
  simp [readDatePrefix, read4_pad4 y hy, expectChar_cons_self, read2_pad2 m hm,
    read2_pad2 d hd, hv]

theorem readDatePrefix_formatDate (dte : Date)
    (hv : validDate dte.year dte.month dte.day = true) :
    readDatePrefix (formatDate dte).data = some (dte, []) := by
  obtain ⟨y, m, dd⟩ := dte
  obtain ⟨hy, hm, hd⟩ := validDate_bounds hv
  have h := readDatePrefix_format y m dd hy hm hd hv []
  simpa [formatDate] using h

theorem tryParseDate_format (dte : Date)
    (hv : validDate dte.year dte.month dte.day = true) :
    tryParseDate (formatDate dte).data = some dte := by
  have h := readDatePrefix_formatDate dte hv
  simp [tryParseDate, parseFmtT, parseFmtTZ, parseFmtSpace, parseFmtDateOnly, h,
    expectChar, Option.orElse]

theorem readDatePrefix_valid {cs : List Char} {dte : Date} {rest : List Char}
    (h : readDatePrefix cs = some (dte, rest)) :
    validDate dte.year dte.month dte.day = true := by
  simp only [readDatePrefix, bind, Option.bind_eq_some] at h
  obtain ⟨⟨y, cs1⟩, h1, h⟩ := h
  obtain ⟨cs2, h2, h⟩ := h
  obtain ⟨⟨m, cs3⟩, h3, h⟩ := h
  obtain ⟨cs4, h4, h⟩ := h
  obtain ⟨⟨dd, cs5⟩, h5, h⟩ := h
  split at h
  · rename_i hv
    simp only [Option.some.injEq, Prod.mk.injEq] at h
    obtain ⟨hdte, hrest⟩ := h
    subst hdte
    simpa using hv
  · exact absurd h (by simp)

theorem parseFmtT_valid {cs : List Char} {dte : Date} (h : parseFmtT cs = some dte) :
    validDate dte.year dte.month dte.day = true := by
  simp only [parseFmtT, bind, Option.bind_eq_some] at h
  obtain ⟨⟨d0, cs1⟩, h1, h⟩ := h
  obtain ⟨cs2, h2, h⟩ := h
  obtain ⟨cs3, h3, h⟩ := h
  split at h
  · obtain rfl := (Option.some.injEq _ _).mp h
    exact readDatePrefix_valid h1
  · exact absurd h (by simp)

theorem parseFmtTZ_valid {cs : List Char} {dte : Date} (h : parseFmtTZ cs = some dte) :
    validDate dte.year dte.month dte.day = true := by
  simp only [parseFmtTZ, bind, Option.bind_eq_some] at h
  obtain ⟨⟨d0, cs1⟩, h1, h⟩ := h
  obtain ⟨cs2, h2, h⟩ := h
  obtain ⟨cs3, h3, h⟩ := h
  obtain ⟨cs4, h4, h⟩ := h
  split at h
  · obtain rfl := (Option.some.injEq _ _).mp h
    exact readDatePrefix_valid h1
  · exact absurd h (by simp)

theorem parseFmtSpace_valid {cs : List Char} {dte : Date} (h : parseFmtSpace cs = some dte) :
    validDate dte.year dte.month dte.day = true := by
  simp only [parseFmtSpace, bind, Option.bind_eq_some] at h
  obtain ⟨⟨d0, cs1⟩, h1, h⟩ := h
  obtain ⟨cs2, h2, h⟩ := h
  obtain ⟨cs3, h3, h⟩ := h
  split at h
  · obtain rfl := (Option.some.injEq _ _).mp h
    exact readDatePrefix_valid h1
  · exact absurd h (by simp)

theorem parseFmtDateOnly_valid {cs : List Char} {dte : Date} (h : parseFmtDateOnly cs = some dte) :
    validDate dte.year dte.month dte.day = true := by
  simp only [parseFmtDateOnly, bind, Option.bind_eq_some] at h
  obtain ⟨⟨d0, cs1⟩, h1, h⟩ := h
  split at h
  · obtain rfl := (Option.some.injEq _ _).mp h
    exact readDatePrefix_valid h1
  · exact absurd h (by simp)

theorem tryParseDate_valid {cs : List Char} {dte : Date} (h : tryParseDate cs = some dte) :
    validDate dte.year dte.month dte.day = true := by
  unfold tryParseDate at h
  cases hT : parseFmtT cs with
  | some d => rw [hT] at h; simp [Option.orElse] at h; exact h ▸ parseFmtT_valid hT
  | none =>
    rw [hT] at h; simp only [Option.orElse, Option.none_orElse] at h
    cases hZ : parseFmtTZ cs with
    | some d => rw [hZ] at h; simp at h; exact h ▸ parseFmtTZ_valid hZ
    | none =>
      rw [hZ] at h; simp only [Option.none_orElse] at h
      cases hS : parseFmtSpace cs with
      | some d => rw [hS] at h; simp at h; exact h ▸ parseFmtSpace_valid hS
      | none =>
        rw [hS] at h; simp only [Option.none_orElse] at h
        exact parseFmtDateOnly_valid h

theorem formatDate_ne_empty (d : Date) : formatDate d ≠ "" := by
  intro h
  have h2 := congrArg String.data h
  simp [formatDate, pad4Chars] at h2

/-! ## Claim C4 — date normalization -/

/-- The ordered list of accepted textual formats of `_normalize_date`. -/
def acceptedFormats : List (List Char → Option Date) :=
  [parseFmtT, parseFmtTZ, parseFmtSpace, parseFmtDateOnly]

/-- The DateNormalizer contract as amended: normalization is total (never
raises); an empty or missing input yields the empty canonical value `""`;
a non-empty string is tried against the accepted formats in order and the
date portion of the first successful parse is returned, zero-padded; a
non-empty string matching no format is returned unchanged; and an input
that is already a date/time value is returned as its full string
representation `str(value)` — for a pure date this is the date itself, but
for a datetime it keeps the time of day instead of reducing to the date
component. -/
def normalizeContract (v : PyVal) : String :=
  match v with
  | .vNaN => ""
  | .vStr s =>
    if s = "" then ""
    else
      match acceptedFormats.findSome? (fun p => p s.data) with
      | some d => formatDate d
      | none => s
  | .vDate d => formatDate d
  | .vDateTime dt => formatDateTime dt

/-- **C4, counterexample.**  The claim states that an input that is already
a date/time value normalizes to its date component.  For the datetime
2024-01-02 15:30:45, `_normalize_date` returns `str(value)`, which keeps
the time of day: the result is not the date component `"2024-01-02"`. -/
theorem C4_counterexample :
    normalizeDate (.vDateTime ⟨⟨2024, 1, 2⟩, 15, 30, 45⟩) = "2024-01-02 15:30:45" ∧
      normalizeDate (.vDateTime ⟨⟨2024, 1, 2⟩, 15, 30, 45⟩) ≠ "2024-01-02" := by
  constructor <;> decide

/-- **C4, amended.**  For every input value, date normalization never
raises (it is a total function) and agrees with the amended contract: the
accepted formats are tried in order and the date portion of the first
successful parse is returned; a date/time input is returned as its full
string representation (not reduced to its date component); an empty or
missing input yields the empty canonical value; and a non-empty
unparseable string is returned unchanged. -/
theorem C4_normalize_follows_contract (v : PyVal) :
    normalizeDate v = normalizeContract v := by
  cases v with
  | vNaN => rfl
  | vDate d => rfl
  | vDateTime dt => rfl
  | vStr s =>
    by_cases hs : s = ""
    · simp [normalizeDate, normalizeContract, hs]
    · simp only [normalizeDate, normalizeContract, hs, if_false]
      have hfind : acceptedFormats.findSome? (fun p => p s.data) = tryParseDate s.data := by
        simp [acceptedFormats, List.findSome?, tryParseDate]
        cases parseFmtT s.data <;> cases parseFmtTZ s.data <;>
          cases parseFmtSpace s.data <;> cases parseFmtDateOnly s.data <;>
            simp [Option.orElse]
      rw [hfind]

/-! ## Claim C10 — idempotence of normalization on strings -/

/-- **C10.**  Date normalization is idempotent on string inputs: the
output is either `""`, a zero-padded date-only string that reparses to the
same date, or the original unparseable string, and all three normalize to
themselves. -/
theorem C10_normalize_idempotent (s : String) : normStr (normStr s) = normStr s := by
  by_cases hs : s = ""
  · subst hs; rfl
  · cases hp : tryParseDate s.data with
    | none =>
      have hinner : normStr s = s := by simp [normStr, normalizeDate, hs, hp]
      rw [hinner]
      exact hinner
    | some d =>
      have hinner : normStr s = formatDate d := by simp [normStr, normalizeDate, hs, hp]
      have hv := tryParseDate_valid hp
      rw [hinner]
      simp [normStr, normalizeDate, formatDate_ne_empty d, tryParseDate_format d hv]

/-! ## Structure lemmas for `compare_all_combinations` -/

/-- The final sort only permutes the rows produced by the two loops. -/
theorem compareAll_perm (tol : ℚ) (api : List ApiRow) (bank : List BankRow) :
    (compareAllCombinations tol api bank).Perm
      (bank.flatMap (processBankRow tol api) ++ feedOnlyRows api bank) :=
  List.perm_insertionSort rowLe _

/-- Every row of the bank-driven loop is a `mkMergedRow` with one of the
three bank-side record kinds. -/
theorem processBankRow_shape (tol : ℚ) (api : List ApiRow) (b : BankRow) :
    ∀ r ∈ processBankRow tol api b,
      ∃ v s tipo, r = mkMergedRow tol b v s tipo ∧ tipo ≠ "Só API" := by
  intro r hr
  simp only [processBankRow] at hr
  split at hr
  · split at hr
    · simp only [List.mem_singleton] at hr
      exact ⟨_, _, _, hr, by decide⟩
    · simp only [List.mem_singleton] at hr
      exact ⟨_, _, _, hr, by decide⟩
  · obtain ⟨a, _, rfl⟩ := List.mem_map.mp hr
    exact ⟨_, _, _, rfl, by decide⟩

/-- A `mkMergedRow` computes the absolute difference and the tolerance
test, whatever its kind. -/
theorem mkMergedRow_props (tol : ℚ) (b : BankRow) (v : ℚ) (s tipo : String) :
    (mkMergedRow tol b v s tipo).Diferenca =
      |(mkMergedRow tol b v s tipo).PercentualAcumulado_API -
        (mkMergedRow tol b v s tipo).PercentualAcumulado_Banco| ∧
      ((mkMergedRow tol b v s tipo).Status = "OK" ↔
        (mkMergedRow tol b v s tipo).Diferenca < tol) := by
  refine ⟨rfl, ?_⟩
  unfold mkMergedRow
  dsimp only
  split_ifs with h
  · exact ⟨fun _ => h, fun _ => rfl⟩
  · exact ⟨fun hco => absurd hco (by decide), fun hlt => absurd hlt h⟩

/-! ## Claim C2 — difference and status of emitted records -/

/-- Feed side of the C2 counterexample. -/
def c2Api : List ApiRow := [⟨1, 1, "2024-01-05", 1/20⟩]

/-- Bank side of the C2 counterexample (a different instrument). -/
def c2Bank : List BankRow := [⟨2, 1, "2024-01-05", 100, 0, 0, 0⟩]

/-- **C2, counterexample.**  With tolerance `1/10`, the single feed-only
row emitted for `c2Api`/`c2Bank` has difference `1/20 < 1/10` yet status
`'ERRO'`: the claim "status is OK if and only if the difference is
strictly below the tolerance, for every emitted record including the
feed-only pass" is false on the code. -/
theorem C2_counterexample :
    ((compareAllCombinations (1/10) c2Api c2Bank).filter
        (fun r => r.TipoRegistro == "Só API")).map (fun r => (r.Diferenca, r.Status))
      = [(1/20, "ERRO")] ∧ ((1 : ℚ)/20 < 1/10) := by
  have hn : normStr "2024-01-05" = "2024-01-05" := by decide
  constructor
  · norm_num [compareAllCombinations, processBankRow, feedOnlyRows, feedOnlyQualifies,
      rawConsumed, exactMatch, mkMergedRow, mkFeedOnlyRow, c2Api, c2Bank,
      List.insertionSort, List.orderedInsert, rowLe, chLeB, hn,
      periodoDescricao, PERIODO_DESCRICOES]
    decide
  · norm_num

/-- **C2, amended.**  Every record emitted by the bank-driven passes
(kinds `"Ambas (Data exata)"`, `"Ambas (Data não exata)"`, `"Só Banco"`)
has difference `|feed − bank|` and status `OK` iff that difference is
strictly below the tolerance; records of the feed-only pass
(`"Só API"`) instead carry the raw feed percentage as difference (no
absolute value), bank percentage 0, and status unconditionally `'ERRO'`. -/
theorem C2_difference_status (tol : ℚ) (api : List ApiRow) (bank : List BankRow)
    (r : ResultRow) (hr : r ∈ compareAllCombinations tol api bank) :
    (r.TipoRegistro ≠ "Só API" →
      r.Diferenca = |r.PercentualAcumulado_API - r.PercentualAcumulado_Banco| ∧
        (r.Status = "OK" ↔ r.Diferenca < tol)) ∧
    (r.TipoRegistro = "Só API" →
      r.Diferenca = r.PercentualAcumulado_API ∧ r.Status = "ERRO" ∧
        r.PercentualAcumulado_Banco = 0) := by
  have hr' := (compareAll_perm tol api bank).mem_iff.mp hr
  rcases List.mem_append.mp hr' with hb | hf
  · obtain ⟨b, _, hrb⟩ := List.mem_flatMap.mp hb
    obtain ⟨v, s, tipo, rfl, htipo⟩ := processBankRow_shape tol api b _ hrb
    refine ⟨fun _ => mkMergedRow_props tol b v s tipo, fun hco => absurd hco htipo⟩
  · simp only [feedOnlyRows, List.mem_map, List.mem_filter] at hf
    obtain ⟨a, hmem, heq⟩ := hf
    subst heq
    exact ⟨fun hne => absurd rfl hne, fun _ => ⟨rfl, rfl, rfl⟩⟩

/-- The bank-side row of the C2 witness. -/
def c2Row : ResultRow := mkMergedRow (1/10) ⟨2, 1, "2024-01-05", 100, 0, 0, 0⟩ 0 "" "Só Banco"

/-- Witness for `C2_difference_status` at a concrete emitted record. -/
theorem C2_difference_status_witness :
    (c2Row.TipoRegistro ≠ "Só API" →
      c2Row.Diferenca = |c2Row.PercentualAcumulado_API - c2Row.PercentualAcumulado_Banco| ∧
        (c2Row.Status = "OK" ↔ c2Row.Diferenca < 1/10)) ∧
    (c2Row.TipoRegistro = "Só API" →
      c2Row.Diferenca = c2Row.PercentualAcumulado_API ∧ c2Row.Status = "ERRO" ∧
        c2Row.PercentualAcumulado_Banco = 0) :=
  C2_difference_status (1/10) c2Api c2Bank c2Row (by
    have hn : normStr "2024-01-05" = "2024-01-05" := by decide
    norm_num [compareAllCombinations, processBankRow, feedOnlyRows, feedOnlyQualifies,
      rawConsumed, exactMatch, mkMergedRow, mkFeedOnlyRow, c2Api, c2Bank, c2Row,
      List.insertionSort, List.orderedInsert, rowLe, chLeB, hn,
      periodoDescricao, PERIODO_DESCRICOES])

/-! ## Claim C9 — empty snapshots -/

/-- **C9.**  A run with an empty bank-side or feed-side snapshot emits no
records and returns the explicit "no data" failure value (`none`, the
model of the `""` return of `run_comparison`) instead of raising —
`runComparison` is a total function. -/
theorem C9_empty_input_no_data (tol : ℚ) (api : List ApiRow) (bank : List BankRow)
    (h : api = [] ∨ bank = []) : runComparison tol api bank = none := by
  rcases h with h | h <;> subst h <;> simp [runComparison]

/-- Witness for `C9_empty_input_no_data`: a nonempty feed snapshot against
an empty bank snapshot. -/
theorem C9_empty_input_no_data_witness :
    runComparison COMPARISON_TOLERANCE c2Api [] = none :=
  C9_empty_input_no_data COMPARISON_TOLERANCE c2Api [] (Or.inr rfl)

/-! ## Claim C5 — feed-only emission -/

/-- `mkFeedOnlyRow` preserves all four feed-row fields, hence is
injective. -/
theorem mkFeedOnlyRow_injective : Function.Injective mkFeedOnlyRow := by
  intro x y h
  have h1 := congrArg ResultRow.Id h
  have h2 := congrArg ResultRow.Periodo h
  have h3 := congrArg ResultRow.DataFinal_API h
  have h4 := congrArg ResultRow.PercentualAcumulado_API h
  cases x; cases y
  simp_all [mkFeedOnlyRow]

/-- The rows of the bank-driven loop never carry the feed-only kind. -/
theorem bankPass_not_feedOnly (tol : ℚ) (api : List ApiRow) (bank : List BankRow) :
    (bank.flatMap (processBankRow tol api)).filter
      (fun r => r.TipoRegistro == "Só API") = [] := by
  rw [List.filter_eq_nil_iff]
  intro r hr
  obtain ⟨b, _, hrb⟩ := List.mem_flatMap.mp hr
  obtain ⟨v, s, tipo, rfl, htipo⟩ := processBankRow_shape tol api b r hrb
  simpa [mkMergedRow] using htipo

/-- **C5.**  A feed-side record occurring once in the feed series, whose
normalized date was never consumed by an exact match in pass 1 and for
which no bank-side record shares its (instrument id, period id), is
emitted exactly once as a feed-only record, with bank percentage 0 and
difference equal to the feed percentage itself. -/
theorem C5_feed_only_emission (tol : ℚ) (api : List ApiRow) (bank : List BankRow)
    (f : ApiRow) (_hmem : f ∈ api) (honce : api.count f = 1)
    (hnever : ∀ a ∈ api, (∃ b ∈ bank, exactMatch b a = true) →
      normStr a.DataFinal ≠ normStr f.DataFinal)
    (hnobank : ∀ b ∈ bank, ¬(b.FinancialInstrumentId = f.Id ∧
      b.PeriodoSelecionado = f.PeriodoSelecionado)) :
    ((compareAllCombinations tol api bank).filter
        (fun r => r.TipoRegistro == "Só API")).count (mkFeedOnlyRow f) = 1 ∧
      (mkFeedOnlyRow f).PercentualAcumulado_Banco = 0 ∧
      (mkFeedOnlyRow f).Diferenca = f.PercentualAcumulado := by
  refine ⟨?_, rfl, rfl⟩
  have hq : feedOnlyQualifies api bank f = true := by
    unfold feedOnlyQualifies
    rw [Bool.and_eq_true]
    constructor
    · rw [Bool.not_eq_true']
      rw [Bool.eq_false_iff]
      intro hcons
      unfold rawConsumed at hcons
      rw [List.any_eq_true] at hcons
      obtain ⟨a, ha, hcond⟩ := hcons
      rw [Bool.and_eq_true, List.any_eq_true] at hcond
      obtain ⟨heqs, b, hb, hex⟩ := hcond
      exact hnever a ha ⟨b, hb, hex⟩ (by rw [eq_of_beq heqs])
    · rw [List.isEmpty_iff, List.filter_eq_nil_iff]
      intro b hb hcond
      rw [Bool.and_eq_true, beq_iff_eq, beq_iff_eq] at hcond
      exact hnobank b hb hcond
  calc ((compareAllCombinations tol api bank).filter
          (fun r => r.TipoRegistro == "Só API")).count (mkFeedOnlyRow f)
      = (((bank.flatMap (processBankRow tol api)) ++ feedOnlyRows api bank).filter
          (fun r => r.TipoRegistro == "Só API")).count (mkFeedOnlyRow f) :=
        ((compareAll_perm tol api bank).filter _).count_eq _
    _ = (feedOnlyRows api bank).count (mkFeedOnlyRow f) := by
        rw [List.filter_append, bankPass_not_feedOnly, List.nil_append,
          List.filter_eq_self.mpr]
        intro r hr
        simp only [feedOnlyRows, List.mem_map, List.mem_filter] at hr
        obtain ⟨a, hmem2, heq⟩ := hr
        subst heq
        rfl
    _ = (api.filter (feedOnlyQualifies api bank)).count f := by
        unfold feedOnlyRows
        exact List.count_map_of_injective _ _ mkFeedOnlyRow_injective _
    _ = 1 := (List.count_filter hq).trans honce

/-- Concrete feed row of the C5 witness. -/
def c5Feed : ApiRow := ⟨1, 1, "2024-01-05", 1⟩

/-- Concrete bank snapshot of the C5 witness (another instrument). -/
def c5Bank : List BankRow := [⟨2, 1, "2024-01-05", 100, 0, 0, 0⟩]

/-- Witness for `C5_feed_only_emission` at a concrete run. -/
theorem C5_feed_only_emission_witness :
    ((compareAllCombinations 2 [c5Feed] c5Bank).filter
        (fun r => r.TipoRegistro == "Só API")).count (mkFeedOnlyRow c5Feed) = 1 ∧
      (mkFeedOnlyRow c5Feed).PercentualAcumulado_Banco = 0 ∧
      (mkFeedOnlyRow c5Feed).Diferenca = c5Feed.PercentualAcumulado :=
  C5_feed_only_emission 2 [c5Feed] c5Bank c5Feed (by decide) (by decide)
    (by decide) (by decide)

/-! ## Claim C6 — one row per observation -/

/-- Number of rows the bank-driven loop emits for one bank record: one per
exact feed match, or a single fallback row when there is none. -/
theorem processBankRow_length (tol : ℚ) (api : List ApiRow) (b : BankRow) :
    (processBankRow tol api b).length =
      max 1 (api.filter (fun a => exactMatch b a)).length := by
  by_cases h : (api.filter (fun a => exactMatch b a)).isEmpty
  · have hlen : (api.filter (fun a => exactMatch b a)).length = 0 := by
      rw [List.isEmpty_iff] at h
      rw [h]
      rfl
    have h1 : (processBankRow tol api b).length = 1 := by
      simp only [processBankRow, if_pos h]
      cases hG : (api.filter (fun a =>
          a.Id == b.FinancialInstrumentId &&
            a.PeriodoSelecionado == b.PeriodoSelecionado)).getLast? <;>
        simp [hG]
    rw [hlen, h1]
    simp
  · simp only [processBankRow, if_neg h, List.length_map]
    have : (api.filter (fun a => exactMatch b a)).length ≠ 0 := by
      simpa [List.isEmpty_iff, List.length_eq_zero] using h
    omega

/-- Total number of rows emitted by the bank-driven loop. -/
theorem bankPass_length (tol : ℚ) (api : List ApiRow) (bank : List BankRow) :
    (bank.flatMap (processBankRow tol api)).length =
      (bank.map (fun b => max 1 (api.filter (fun a => exactMatch b a)).length)).sum := by
  induction bank with
  | nil => rfl
  | cons b bs ih => simp [List.flatMap_cons, ih, processBankRow_length]

/-- Feed side of the C6 counterexample: two records under instrument 1
sharing the bank row's key, and one record of instrument 2 sharing only
the date string. -/
def c6Api : List ApiRow :=
  [⟨1, 1, "2024-01-02", 5⟩, ⟨1, 1, "2024-01-02", 6⟩, ⟨2, 1, "2024-01-02", 7⟩]

/-- Bank side of the C6 counterexample: a single record of instrument 1. -/
def c6Bank : List BankRow := [⟨1, 1, "2024-01-02", 100, 0, 0, 5⟩]

/-- **C6, counterexample.**  The single bank record yields **two** output
rows (one per duplicate feed record sharing its (id, period, date) key),
and the instrument-2 feed record — never paired in pass 1 and with no
bank record for (2, 1) — yields **none**, because its raw date string
equals a date consumed by instrument 1's exact match.  The claim promises
exactly one row per bank record and exactly one row for such a feed
record. -/
theorem C6_counterexample :
    ((compareAllCombinations (1/10) c6Api c6Bank).filter (fun r => r.Id == 1)).length = 2 ∧
      ((compareAllCombinations (1/10) c6Api c6Bank).filter (fun r => r.Id == 2)).length = 0 ∧
      (⟨2, 1, "2024-01-02", 7⟩ : ApiRow) ∈ c6Api ∧
      c6Bank.filter (fun b => b.FinancialInstrumentId == 2) = [] := by
  have hn : normStr "2024-01-02" = "2024-01-02" := by decide
  refine ⟨?_, ?_, by decide, by decide⟩ <;>
    norm_num [compareAllCombinations, processBankRow, feedOnlyRows, feedOnlyQualifies,
      rawConsumed, exactMatch, mkMergedRow, mkFeedOnlyRow, c6Api, c6Bank,
      List.insertionSort, List.orderedInsert, rowLe, chLeB, hn,
      periodoDescricao, PERIODO_DESCRICOES]

/-- **C6, amended.**  The reconciliation emits, for each bank-side record,
one row per feed-side record sharing its (instrument id, period id,
normalized date) key — a single row when there is no such feed record —
plus one row for each feed-side record whose raw date string was never
consumed by any exact match (of any instrument) and that has no bank-side
record for its (instrument id, period id); a feed record whose raw date
string collides with any consumed date yields no row. -/
theorem C6_row_count (tol : ℚ) (api : List ApiRow) (bank : List BankRow) :
    (compareAllCombinations tol api bank).length =
      (bank.map (fun b => max 1 (api.filter (fun a => exactMatch b a)).length)).sum +
        (api.filter (feedOnlyQualifies api bank)).length := by
  rw [(compareAll_perm tol api bank).length_eq, List.length_append,
    bankPass_length]
  congr 1
  simp [feedOnlyRows]

/-! ## Claim C8 — fallback pass -/

/-- **C8.**  A bank-side record with no exact (instrument id, period id,
normalized date) match is emitted as an approximate match using the *last*
feed-side record (in feed-series order) sharing its (instrument id,
period id) when one exists, and as a bank-only record with feed
percentage 0 otherwise. -/
theorem C8_fallback (tol : ℚ) (api : List ApiRow) (bank : List BankRow) (b : BankRow)
    (hb : b ∈ bank) (hnoexact : api.filter (fun a => exactMatch b a) = []) :
    ((api.filter (fun a => a.Id == b.FinancialInstrumentId &&
          a.PeriodoSelecionado == b.PeriodoSelecionado) = [] →
        mkMergedRow tol b 0 "" "Só Banco" ∈ compareAllCombinations tol api bank) ∧
      (∀ g, (api.filter (fun a => a.Id == b.FinancialInstrumentId &&
          a.PeriodoSelecionado == b.PeriodoSelecionado)).getLast? = some g →
        mkMergedRow tol b g.PercentualAcumulado g.DataFinal "Ambas (Data não exata)"
          ∈ compareAllCombinations tol api bank)) := by
  have hmemAll : ∀ r ∈ processBankRow tol api b, r ∈ compareAllCombinations tol api bank := by
    intro r hr
    exact (compareAll_perm tol api bank).mem_iff.mpr
      (List.mem_append.mpr (Or.inl (List.mem_flatMap.mpr ⟨b, hb, hr⟩)))
  have hempty : (api.filter (fun a => exactMatch b a)).isEmpty = true := by
    rw [List.isEmpty_iff]
    exact hnoexact
  constructor
  · intro hshared
    apply hmemAll
    simp [processBankRow, hempty, hshared]
  · intro g hg
    apply hmemAll
    simp [processBankRow, hempty, hg]

/-- Feed side of the C8 witness: same key as the bank record but a
different date. -/
def c8Api : List ApiRow := [⟨1, 1, "2024-01-03", 7⟩]

/-- Bank side of the C8 witness. -/
def c8Bank : List BankRow := [⟨1, 1, "2024-01-02", 100, 0, 0, 5⟩]

/-- Witness for `C8_fallback` at a concrete run: the bank record has no
exact match and picks up the feed record as an approximate match. -/
theorem C8_fallback_witness :
    ((c8Api.filter (fun a => a.Id == (1 : Int) && a.PeriodoSelecionado == (1 : Int)) = [] →
        mkMergedRow 2 ⟨1, 1, "2024-01-02", 100, 0, 0, 5⟩ 0 "" "Só Banco"
          ∈ compareAllCombinations 2 c8Api c8Bank) ∧
      (∀ g, (c8Api.filter (fun a =>
          a.Id == (1 : Int) && a.PeriodoSelecionado == (1 : Int))).getLast? = some g →
        mkMergedRow 2 ⟨1, 1, "2024-01-02", 100, 0, 0, 5⟩ g.PercentualAcumulado g.DataFinal
            "Ambas (Data não exata)"
          ∈ compareAllCombinations 2 c8Api c8Bank)) :=
  C8_fallback 2 c8Api c8Bank ⟨1, 1, "2024-01-02", 100, 0, 0, 5⟩ (by decide) (by decide)

/-! ## Claim C1 — the return chain -/

/-- Fallback record for safe list indexing in theorem statements. -/
def dummyRent : RentRecord := ⟨⟨0, 0, ⟨0, 0, 0⟩, ⟨0, 0, 0⟩, 0⟩, 0, 0, 0⟩

/-- Quota at index `i` of a quota sequence (0 out of range). -/
def quotaAt (l : List ℚ) (i : ℕ) : ℚ := l.getD i 0

/-- The claim's per-index return formula for a period quota sequence `l`
with baseline quota `pq`: `return[0] = quota[0]/pq − 1` and
`return[i] = quota[i]/quota[i−1] − 1` for `i > 0`. -/
def chainReturn (pq : ℚ) (l : List ℚ) (i : ℕ) : ℚ :=
  if i = 0 then quotaAt l 0 / pq - 1 else quotaAt l i / quotaAt l (i - 1) - 1

/-- The claim's compounding formula: `Π_{j=0..i} (1 + return[j])`. -/
def chainProd (pq : ℚ) (l : List ℚ) (i : ℕ) : ℚ :=
  ((List.range (i + 1)).map (fun j => 1 + chainReturn pq l j)).prod

theorem chainReturn_shift (pq q0 : ℚ) (qr : List ℚ) (j : ℕ) :
    chainReturn q0 qr j = chainReturn pq (q0 :: qr) (j + 1) := by
  cases j with
  | zero => simp [chainReturn, quotaAt]
  | succ i => simp [chainReturn, quotaAt]

theorem chainProd_cons_succ (pq q0 : ℚ) (qr : List ℚ) (k : ℕ) :
    chainProd pq (q0 :: qr) (k + 1) =
      (1 + chainReturn pq (q0 :: qr) 0) * chainProd q0 qr k := by
  unfold chainProd
  rw [List.range_succ_eq_map, List.map_cons, List.prod_cons, List.map_map]
  congr 1
  congr 1
  apply List.map_congr_left
  intro j _
  simp only [Function.comp_apply]
  rw [chainReturn_shift pq q0 qr j]

/-- Invariant of the `i > 0` iterations: with a nonzero previous quota and
nonzero quotas in the remaining records, the loop succeeds and each output
carries the claim's return and the compounded product relative to the
incoming accumulated value. -/
theorem calcRest_spec (l : List DbRecord) : ∀ (pq pa : ℚ), pq ≠ 0 →
    (∀ r ∈ l, r.QuotaValue ≠ 0) →
    ∃ out, calcRest pq pa l = some out ∧ out.length = l.length ∧
      ∀ i < l.length,
        (out.getD i dummyRent).Rentabilidade =
          chainReturn pq (l.map (·.QuotaValue)) i ∧
        1 + (out.getD i dummyRent).RentabilidadeAcumulada =
          (1 + pa) * chainProd pq (l.map (·.QuotaValue)) i ∧
        (out.getD i dummyRent).PorcentagemRentabilidadeAcumulada =
          (out.getD i dummyRent).RentabilidadeAcumulada * 100 := by
  induction l with
  | nil =>
    intro pq pa hpq hq
    exact ⟨[], rfl, rfl, fun i hi => absurd hi (Nat.not_lt_zero i)⟩
  | cons p rest ih =>
    intro pq pa hpq hq
    have hp : p.QuotaValue ≠ 0 := hq p (List.mem_cons_self p rest)
    have hrest : ∀ r ∈ rest, r.QuotaValue ≠ 0 := fun r hr => hq r (List.mem_cons_of_mem _ hr)
    obtain ⟨tail, htail, hlen, hspec⟩ :=
      ih p.QuotaValue ((pa + 1) * ((p.QuotaValue / pq - 1) + 1) - 1) hp hrest
    refine ⟨mkRent p (p.QuotaValue / pq - 1)
        ((pa + 1) * ((p.QuotaValue / pq - 1) + 1) - 1) :: tail, ?_, ?_, ?_⟩
    · simp only [calcRest, pydiv, if_neg hpq, Option.bind_eq_bind, Option.some_bind]
      rw [htail]
      rfl
    · simp [hlen]
    · intro i hi
      cases i with
      | zero =>
        refine ⟨?_, ?_, rfl⟩
        · simp [mkRent, chainReturn, quotaAt]
        · rw [List.getD_cons_zero]
          have h0 : chainProd pq ((p :: rest).map (·.QuotaValue)) 0 =
              1 + chainReturn pq ((p :: rest).map (·.QuotaValue)) 0 := by
            simp [chainProd, List.range_succ]
          have h1 : chainReturn pq ((p :: rest).map (·.QuotaValue)) 0 =
              p.QuotaValue / pq - 1 := by
            simp [chainReturn, quotaAt]
          rw [h0, h1]
          simp only [mkRent]
          ring
      | succ k =>
        have hk : k < rest.length := by simpa using hi
        obtain ⟨h1, h2, h3⟩ := hspec k hk
        refine ⟨?_, ?_, ?_⟩
        · rw [List.getD_cons_succ, h1, List.map_cons]
          exact chainReturn_shift pq p.QuotaValue (rest.map (·.QuotaValue)) k
        · rw [List.getD_cons_succ, h2, List.map_cons, chainProd_cons_succ]
          have h0 : chainReturn pq (p.QuotaValue :: rest.map (·.QuotaValue)) 0 =
              p.QuotaValue / pq - 1 := by
            simp [chainReturn, quotaAt]
          rw [h0]
          ring
        · rw [List.getD_cons_succ]
          exact h3

/-- The whole loop with an anchor present: the first record divides by the
anchor quota and the chain compounds the claim's product formula. -/
theorem calcPeriods_spec (aq : ℚ) (l : List DbRecord) (haq : aq ≠ 0)
    (hq : ∀ r ∈ l, r.QuotaValue ≠ 0) :
    ∃ out, calcPeriods (some aq) l = some out ∧ out.length = l.length ∧
      ∀ i < l.length,
        (out.getD i dummyRent).Rentabilidade =
          chainReturn aq (l.map (·.QuotaValue)) i ∧
        (out.getD i dummyRent).RentabilidadeAcumulada =
          chainProd aq (l.map (·.QuotaValue)) i - 1 ∧
        (out.getD i dummyRent).PorcentagemRentabilidadeAcumulada =
          (out.getD i dummyRent).RentabilidadeAcumulada * 100 := by
  cases l with
  | nil => exact ⟨[], rfl, rfl, fun i hi => absurd hi (Nat.not_lt_zero i)⟩
  | cons p rest =>
    have hp : p.QuotaValue ≠ 0 := hq p (List.mem_cons_self p rest)
    have hrest : ∀ r ∈ rest, r.QuotaValue ≠ 0 := fun r hr => hq r (List.mem_cons_of_mem _ hr)
    obtain ⟨tail, htail, hlen, hspec⟩ :=
      calcRest_spec rest p.QuotaValue (p.QuotaValue / aq - 1) hp hrest
    refine ⟨mkRent p (p.QuotaValue / aq - 1) (p.QuotaValue / aq - 1) :: tail, ?_, ?_, ?_⟩
    · simp only [calcPeriods, pydiv, if_neg haq, Option.bind_eq_bind, Option.some_bind]
      rw [htail]
      rfl
    · simp [hlen]
    · intro i hi
      cases i with
      | zero =>
        refine ⟨?_, ?_, rfl⟩
        · simp [mkRent, chainReturn, quotaAt]
        · rw [List.getD_cons_zero]
          have h0 : chainProd aq ((p :: rest).map (·.QuotaValue)) 0 =
              1 + chainReturn aq ((p :: rest).map (·.QuotaValue)) 0 := by
            simp [chainProd, List.range_succ]
          have h1 : chainReturn aq ((p :: rest).map (·.QuotaValue)) 0 =
              p.QuotaValue / aq - 1 := by
            simp [chainReturn, quotaAt]
          rw [h0, h1]
          simp only [mkRent]
          ring
      | succ k =>
        have hk : k < rest.length := by simpa using hi
        obtain ⟨h1, h2, h3⟩ := hspec k hk
        refine ⟨?_, ?_, ?_⟩
        · rw [List.getD_cons_succ, h1, List.map_cons]
          exact chainReturn_shift aq p.QuotaValue (rest.map (·.QuotaValue)) k
        · rw [List.getD_cons_succ, List.map_cons, chainProd_cons_succ]
          have h0 : chainReturn aq (p.QuotaValue :: rest.map (·.QuotaValue)) 0 =
              p.QuotaValue / aq - 1 := by
            simp [chainReturn, quotaAt]
          rw [h0]
          linarith [h2]
        · rw [List.getD_cons_succ]
          exact h3

/-- Each record of a successful `calcRest` run is the corresponding input
record extended with the computed fields. -/
theorem calcRest_map_base (l : List DbRecord) : ∀ (pq pa : ℚ) (out : List RentRecord),
    calcRest pq pa l = some out → out.map (·.base) = l := by
  induction l with
  | nil =>
    intro pq pa out h
    simp only [calcRest, Option.some.injEq] at h
    subst h
    rfl
  | cons p rest ih =>
    intro pq pa out h
    simp only [calcRest, Option.bind_eq_bind, Option.bind_eq_some] at h
    obtain ⟨q, hq1, h⟩ := h
    obtain ⟨tail, ht, h⟩ := h
    obtain rfl := (Option.some.injEq _ _).mp h
    simp [mkRent, ih _ _ _ ht]

/-- Each record of a successful loop run is the corresponding in-period
input record extended with the computed fields: anchor-candidate records
produce no output. -/
theorem calcPeriods_map_base (aq : Option ℚ) (l : List DbRecord) :
    ∀ out, calcPeriods aq l = some out → out.map (·.base) = l := by
  cases l with
  | nil =>
    intro out h
    simp only [calcPeriods, Option.some.injEq] at h
    subst h
    rfl
  | cons p rest =>
    intro out h
    cases aq with
    | some a =>
      simp only [calcPeriods, Option.bind_eq_bind, Option.bind_eq_some] at h
      obtain ⟨q, hq1, h⟩ := h
      obtain ⟨tail, ht, h⟩ := h
      obtain rfl := (Option.some.injEq _ _).mp h
      simp [mkRent, calcRest_map_base rest _ _ _ ht]
    | none =>
      simp only [calcPeriods, Option.bind_eq_bind, Option.bind_eq_some] at h
      obtain ⟨tail, ht, h⟩ := h
      obtain rfl := (Option.some.injEq _ _).mp h
      simp [mkRent, calcRest_map_base rest _ _ _ ht]

/-- The head of a filtered list is the first element satisfying the
predicate. -/
theorem head?_filter_eq_find? (p : α → Bool) (l : List α) :
    (l.filter p).head? = l.find? p := by
  induction l with
  | nil => rfl
  | cons x xs ih => by_cases h : p x <;> simp [List.filter_cons, List.find?_cons, h, ih]

/-! ## Claim C7 — anchor selection -/

/-- **C7.**  On a chronologically sorted (instrument, period) group whose
records share the period start date `s`: the anchor candidate is the first
record whose position date is strictly earlier than `s`; every output
record of a successful run comes from the in-period records, in order
(later pre-period records are discarded and produce no return records);
the in-period records stay chronologically ordered; and when no record
precedes `s` there is no anchor. -/
theorem C7_anchor_partition (records : List DbRecord) (s : Date)
    (hsorted : List.Sorted posLe records)
    (hstart : ∀ r ∈ records, r.DataInicioPeriodo = s) :
    ((records.filter (fun r => preAnchor r)).head? =
        records.find? (fun r => dateLt r.PositionDate s)) ∧
      (∀ out, calcGroup records = some out →
        out.map (·.base) = records.filter (fun r => !(preAnchor r))) ∧
      List.Sorted posLe (records.filter (fun r => !(preAnchor r))) ∧
      ((∀ r ∈ records, ¬ dateLt r.PositionDate s = true) →
        (records.filter (fun r => preAnchor r)).head? = none) := by
  have hcong : ∀ r ∈ records, preAnchor r = dateLt r.PositionDate s := by
    intro r hr
    unfold preAnchor
    rw [hstart r hr]
  refine ⟨?_, ?_, ?_, ?_⟩
  · rw [List.filter_congr hcong, head?_filter_eq_find?]
  · intro out hout
    exact calcPeriods_map_base _ _ out hout
  · exact hsorted.sublist (List.filter_sublist records)
  · intro hnone
    rw [List.filter_congr hcong, List.head?_eq_none_iff, List.filter_eq_nil_iff]
    exact hnone

/-- A four-record group: two pre-period records (the earlier one is the
anchor, the later one is discarded) and two in-period records. -/
def c7Records : List DbRecord :=
  [⟨1, 1, ⟨2023, 12, 29⟩, ⟨2024, 1, 2⟩, 95⟩,
   ⟨1, 1, ⟨2024, 1, 1⟩, ⟨2024, 1, 2⟩, 100⟩,
   ⟨1, 1, ⟨2024, 1, 2⟩, ⟨2024, 1, 2⟩, 110⟩,
   ⟨1, 1, ⟨2024, 1, 3⟩, ⟨2024, 1, 2⟩, 121⟩]

/-- Witness for `C7_anchor_partition` on a concrete group. -/
theorem C7_anchor_partition_witness :
    ((c7Records.filter (fun r => preAnchor r)).head? =
        c7Records.find? (fun r => dateLt r.PositionDate ⟨2024, 1, 2⟩)) ∧
      (∀ out, calcGroup c7Records = some out →
        out.map (·.base) = c7Records.filter (fun r => !(preAnchor r))) ∧
      List.Sorted posLe (c7Records.filter (fun r => !(preAnchor r))) ∧
      ((∀ r ∈ c7Records, ¬ dateLt r.PositionDate ⟨2024, 1, 2⟩ = true) →
        (c7Records.filter (fun r => preAnchor r)).head? = none) :=
  C7_anchor_partition c7Records ⟨2024, 1, 2⟩ (by decide) (by decide)

/-- **C1.**  On a chronologically sorted group with the anchor present and
all quota values nonzero, the computation succeeds and emits one record
per in-period observation with `return[0] = quota[0]/anchor_quota − 1`,
`return[i] = quota[i]/quota[i−1] − 1`, accumulated return
`Π_{j=0..i}(1 + return[j]) − 1`, and the percentage field equal to the
accumulated return times 100. -/
theorem C1_return_computation (records : List DbRecord) (r0 : DbRecord)
    (_hsorted : List.Sorted posLe records)
    (hanchor : (records.filter (fun r => preAnchor r)).head? = some r0)
    (hq : ∀ r ∈ records, r.QuotaValue ≠ 0) :
    ∃ out, calcGroup records = some out ∧
      out.length = (records.filter (fun r => !(preAnchor r))).length ∧
      ∀ i < out.length,
        (out.getD i dummyRent).Rentabilidade =
          chainReturn r0.QuotaValue
            ((records.filter (fun r => !(preAnchor r))).map (·.QuotaValue)) i ∧
        (out.getD i dummyRent).RentabilidadeAcumulada =
          chainProd r0.QuotaValue
            ((records.filter (fun r => !(preAnchor r))).map (·.QuotaValue)) i - 1 ∧
        (out.getD i dummyRent).PorcentagemRentabilidadeAcumulada =
          (out.getD i dummyRent).RentabilidadeAcumulada * 100 := by
  have hr0mem : r0 ∈ records := by
    have h1 : r0 ∈ records.filter (fun r => preAnchor r) := by
      cases hfl : records.filter (fun r => preAnchor r) with
      | nil => rw [hfl] at hanchor; simp at hanchor
      | cons x xs =>
        rw [hfl] at hanchor
        simp only [List.head?_cons, Option.some.injEq] at hanchor
        rw [← hanchor]
        exact List.mem_cons_self x xs
    exact List.mem_of_mem_filter h1
  have haq : r0.QuotaValue ≠ 0 := hq r0 hr0mem
  have hqp : ∀ r ∈ records.filter (fun r => !(preAnchor r)), r.QuotaValue ≠ 0 :=
    fun r hr => hq r (List.mem_of_mem_filter hr)
  obtain ⟨out, hout, hlen, hspec⟩ :=
    calcPeriods_spec r0.QuotaValue (records.filter (fun r => !(preAnchor r))) haq hqp
  refine ⟨out, ?_, hlen, ?_⟩
  · show calcPeriods ((records.filter (fun r => preAnchor r)).head?.map (·.QuotaValue))
      (records.filter (fun r => !(preAnchor r))) = some out
    rw [hanchor]
    exact hout
  · intro i hi
    exact hspec i (by rw [← hlen]; exact hi)

/-- The spec's Scenario A group: anchor quota 100, in-period quotas 110
and 121. -/
def c1Records : List DbRecord :=
  [⟨1, 1, ⟨2024, 1, 1⟩, ⟨2024, 1, 2⟩, 100⟩,
   ⟨1, 1, ⟨2024, 1, 2⟩, ⟨2024, 1, 2⟩, 110⟩,
   ⟨1, 1, ⟨2024, 1, 3⟩, ⟨2024, 1, 2⟩, 121⟩]

/-- Witness for `C1_return_computation` on the Scenario A group. -/
theorem C1_return_computation_witness :
    ∃ out, calcGroup c1Records = some out ∧
      out.length = (c1Records.filter (fun r => !(preAnchor r))).length ∧
      ∀ i < out.length,
        (out.getD i dummyRent).Rentabilidade =
          chainReturn (100 : ℚ)
            ((c1Records.filter (fun r => !(preAnchor r))).map (·.QuotaValue)) i ∧
        (out.getD i dummyRent).RentabilidadeAcumulada =
          chainProd (100 : ℚ)
            ((c1Records.filter (fun r => !(preAnchor r))).map (·.QuotaValue)) i - 1 ∧
        (out.getD i dummyRent).PorcentagemRentabilidadeAcumulada =
          (out.getD i dummyRent).RentabilidadeAcumulada * 100 :=
  C1_return_computation c1Records ⟨1, 1, ⟨2024, 1, 1⟩, ⟨2024, 1, 2⟩, 100⟩
    (by decide) (by decide) (by decide)

/-! ## Claim C3 — zero previous/anchor quota -/

/-- A sorted group whose anchor record has quota exactly 0, followed by
two in-period records with valid quotas. -/
def c3Records : List DbRecord :=
  [⟨1, 1, ⟨2024, 1, 1⟩, ⟨2024, 1, 2⟩, 0⟩,
   ⟨1, 1, ⟨2024, 1, 2⟩, ⟨2024, 1, 2⟩, 100⟩,
   ⟨1, 1, ⟨2024, 1, 3⟩, ⟨2024, 1, 2⟩, 110⟩]

/-- **C3, code behaviour at the failing input.**  On a group whose anchor
quota is exactly 0, the first in-period division raises
`ZeroDivisionError` (modelled `none`); no per-record handler exists, so
the whole `_calculate_rentabilidade` call aborts and
`get_database_data`'s `except` turns the entire result — every record of
every group — into the empty list, instead of skipping only the affected
record and continuing the sequence as the claim requires. -/
theorem C3_code_behavior :
    calculateRentabilidade c3Records = none ∧ getDatabaseData c3Records = [] := by
  constructor <;> decide
